import Mathlib

/-!
Verification of the comparison-and-rendering engine of
`src/deeplite/profiler/formatter.py` (deeplite-profiler).

The formatter source is embedded shallowly: Python floats become rationals,
Python dicts become association lists iterated in insertion order, fallible
operations return `Except`.  The module `deeplite/profiler/metrics.py`
(providing `Comparative`, `compare_status_values` and the `Metric` class) is
not part of the provided sources; its pieces are modelled from the spec and
are marked as such in their doc comments.
-/

namespace DeepliteProfiler

/-- Python exception kinds that the embedded formatter code can raise or
catch.  `keyError`/`typeError`/`attributeError` arise from dictionary access
and duck typing in the renderer itself. -/
inductive PyErr
  | keyError
  | typeError
  | attributeError
  deriving DecidableEq, Repr

/-- Failure conditions of the comparison path, caught inside the renderer:
`zeroDiv` models Python's ZeroDivisionError, `valueErr` models the
ValueError raised by constructing a `Comparative` from an unknown string. -/
inductive CompErr
  | zeroDiv
  | valueErr
  deriving DecidableEq, Repr

/-- Modelled from the spec: the `Comparative` enumeration lives in
`deeplite/profiler/metrics.py`, which is not among the provided sources.
Spec §3: "a closed enumeration with at least three variants: RATIO
(value_b / value_a, reported as a multiplier), DIFF (value_b - value_a,
reported as a plain number), NONE (no comparison attempted)". -/
inductive Comparative
  | ratio
  | diff
  | none
  deriving DecidableEq, Repr

/-- Modelled from the spec: construction of a `Comparative` from a raw
string (`Comparative(comp)` in the source).  Spec §3: "Construction from an
arbitrary string must fail with an error when the string does not match a
known variant"; the renderer comments that this raises a ValueError.  The
concrete string values of the enum variants are not given by the provided
sources; the variants' lowercase names are used. -/
def Comparative.ofString (s : String) : Except CompErr Comparative :=
  if s = "ratio" then Except.ok Comparative.ratio
  else if s = "diff" then Except.ok Comparative.diff
  else if s = "none" then Except.ok Comparative.none
  else Except.error CompErr.valueErr

/-- The comparative tag carried by a metric object.  Spec §6:
`get_comparative() -> Comparative|string|null`. -/
inductive CompTag
  | mode (c : Comparative)
  | str (s : String)
  | null
  deriving DecidableEq, Repr

/-- A metric's value as seen by the renderer: a number, or the
`NotComputedValue()` placeholder substituted by `parse_metric` when the
metric's value is absent. -/
inductive MetricValue
  | notComputed
  | computed (q : ℚ)
  deriving DecidableEq, Repr

/-- Modelled from the spec: `compare_status_values` lives in
`deeplite/profiler/metrics.py`, which is not among the provided sources.
Spec §4.1: RATIO returns `value_b / value_a` and fails with a
DivisionByZero condition when `value_a == 0`; DIFF returns
`value_b - value_a`; NONE returns null; pure function of its inputs.
§4.1 defines the arithmetic only on numbers, while the renderer may pass
the not-computed placeholder; §7's propagation policy requires any failure
there to be one the renderer catches and turns into a display token, so a
placeholder operand under RATIO/DIFF is modelled as a ValueError. -/
def compare_status_values : Comparative → MetricValue → MetricValue → Except CompErr (Option ℚ)
  | Comparative.none, _, _ => Except.ok Option.none
  | Comparative.ratio, MetricValue.computed a, MetricValue.computed b =>
      if a = 0 then Except.error CompErr.zeroDiv else Except.ok (Option.some (b / a))
  | Comparative.diff, MetricValue.computed a, MetricValue.computed b =>
      Except.ok (Option.some (b - a))
  | _, _, _ => Except.error CompErr.valueErr

/-- The opaque metric objects consumed by the formatter.  Spec §6: a Metric
exposes `friendly_name() -> string`, `value` (nullable number),
`get_value() -> number` (valid only when `value` is non-null),
`get_units() -> string|null`, `get_comparative() -> Comparative|string|null`,
`description() -> string`. -/
structure Metric where
  friendly_name : String
  value : Option ℚ
  units : Option String
  comparative : CompTag
  description : String
  deriving DecidableEq, Repr

/-- An entry of a profile status mapping: a Metric, or a reserved scalar
string entry (under the keys "name" and "backend"). -/
inductive Entry
  | metric (m : Metric)
  | scalar (s : String)
  deriving DecidableEq, Repr

/-- `isinstance(sv, Metric)` on a status-mapping entry. -/
def Entry.isMetric : Entry → Bool
  | Entry.metric _ => true
  | Entry.scalar _ => false

/-- A profile status mapping: an insertion-ordered Python dict from metric
keys to entries, embedded as an association list iterated in order. -/
abbrev StatusDict := List (String × Entry)

/-- Python `d[k]` / `k in d`: the value stored under key `k`, if present. -/
def lookup : StatusDict → String → Option Entry
  | [], _ => Option.none
  | (k, v) :: rest, key => if k = key then Option.some v else lookup rest key

/-- Reading `status_dict['name']` (or `'backend'`) and concatenating it into
a header string: raises KeyError when the key is missing and TypeError when
the stored entry is a Metric rather than a string. -/
def getScalar (d : StatusDict) (k : String) : Except PyErr String :=
  match lookup d k with
  | Option.none => Except.error PyErr.keyError
  | Option.some (Entry.scalar s) => Except.ok s
  | Option.some (Entry.metric _) => Except.error PyErr.typeError

/-- `c * n` in Python: a string of `n` copies of the character `c`. -/
def repChar (c : Char) (n : Nat) : String :=
  String.mk (List.replicate n c)

/-- Right alignment (`>` in a Python format spec): pad on the left with
spaces up to width `w`; a string already at least `w` long is unchanged. -/
def padSpaceLeft (w : Nat) (s : String) : String :=
  repChar ' ' (w - s.length) ++ s

/-- Centering (`^` in a Python format spec): the extra space goes to the
right when the padding is odd. -/
def padCenter (w : Nat) (s : String) : String :=
  let pad := w - s.length
  repChar ' ' (pad / 2) ++ s ++ repChar ' ' (pad - pad / 2)

/-- Left zero-padding of a digit string up to width `w`. -/
def padZeroLeft (w : Nat) (s : String) : String :=
  repChar '0' (w - s.length) ++ s

/-- `|q| * 10 ^ prec` rounded to the nearest natural number (ties upward):
the scaled mantissa used for fixed-point decimal formatting. -/
def roundScaled (prec : Nat) (q : ℚ) : Nat :=
  (2 * q.num.natAbs * 10 ^ prec + q.den) / (2 * q.den)

/-- Python fixed-point formatting `format(q, '.<prec>f')` of a rational:
sign, integer part, a point, and exactly `prec` fractional digits. -/
def formatFixed (prec : Nat) (q : ℚ) : String :=
  let n := roundScaled prec q
  (if q < 0 then "-" else "")
    ++ toString (n / 10 ^ prec) ++ "." ++ padZeroLeft prec (toString (n % 10 ^ prec))

/-- Python `s.split(sep)` for a single-character separator: splits at every
occurrence, keeping empty pieces. -/
def splitChar (sep : Char) : List Char → List (List Char)
  | [] => [[]]
  | c :: cs =>
    match splitChar sep cs with
    | [] => [[]]
    | l :: ls => if c = sep then [] :: l :: ls else (c :: l) :: ls

/-- Python `int()` of a digit string: the base-10 value of its digits
(only applied behind an `isdigit` guard, under which it never fails). -/
def digitsToNat (l : List Char) : Nat :=
  l.foldl (fun n c => n * 10 + (c.toNat - ('0').toNat)) 0

/-- Translation of `NotComputedValue.__format__` (formatter.py lines 57-66):
returns the literal token, left-padded with spaces to the width found in a
right-aligned format spec.  The split on the alignment marker keeps the last
piece, the split on the point keeps the first, and padding happens only when
what remains is all digits. -/
def notComputedFormat (format_spec : String) : String :=
  let s := "<NotComputed>"
  if format_spec.toList.contains '>' then
    let fs := (splitChar '>' format_spec.toList).getLastD []
    let fs := if fs.contains '.' then (splitChar '.' fs).headD [] else fs
    if !fs.isEmpty && fs.all Char.isDigit then
      repChar ' ' (digitsToNat fs - s.length) ++ s
    else s
  else s

/-- Formatting a metric value into a table cell with the format spec
`>{w}.4f`: a number goes through Python float formatting, the placeholder
goes through `NotComputedValue.__format__`. -/
def formatValueCell (w : Nat) : MetricValue → String
  | MetricValue.notComputed => notComputedFormat (">" ++ toString w ++ ".4f")
  | MetricValue.computed q => padSpaceLeft w (formatFixed 4 q)

/-- Translation of `parse_metric` (formatter.py lines 75-87). -/
def parse_metric (metric : Metric) : String × MetricValue × String × CompTag × String :=
  let text := metric.friendly_name
  match metric.value with
  | Option.none =>
      (text, MetricValue.notComputed, "", CompTag.mode Comparative.none, metric.description)
  | Option.some v =>
      (text, MetricValue.computed v, (metric.units).getD "", metric.comparative,
        metric.description)

/-- One metric row of the single-model table (formatter.py lines 109-114):
label with units in a 40-wide column, the value in a 20-wide column. -/
def one_row (status : Metric) : String :=
  match parse_metric status with
  | (text, value, units, _, _) =>
    let print_str := text ++ " (" ++ units ++ ")"
    "|" ++ padSpaceLeft 40 print_str ++ " | " ++ formatValueCell 20 value ++ "|"

/-- The metric loop of `make_one_model_summary_str` (formatter.py lines
106-115): iterates the status mapping's values in order, skipping entries
that are not Metric instances, appending one table row per metric to the
summary accumulator and one footnote line to the description accumulator. -/
def one_loop : List (String × Entry) → String → String → String × String
  | [], summary_str, description_str => (summary_str, description_str)
  | (_, Entry.scalar _) :: rest, summary_str, description_str =>
      one_loop rest summary_str description_str
  | (_, Entry.metric m) :: rest, summary_str, description_str =>
      one_loop rest (summary_str ++ one_row m ++ "\n")
        (description_str ++ "* " ++ m.friendly_name ++ ": " ++ m.description ++ "\n")

/-- Translation of `make_one_model_summary_str` (formatter.py lines
90-124) with `line_length, col1_length, col2_length = 63, 40, 20`.
Reading the reserved `name`/`backend` entries can raise (KeyError or
TypeError); everything else is a pure string build. -/
def make_one_model_summary_str (status_dict : StatusDict) (short_print : Bool := true)
    (description_str : String := "") (summary_str : String := "\n") :
    Except PyErr String := do
  let ss := summary_str ++ "+" ++ repChar '-' 63 ++ "+" ++ "\n"
  let ss := ss ++ "|" ++ padCenter 63 "Deeplite Profiler" ++ "|" ++ "\n"
  let ss := ss ++ "+" ++ repChar '-' 41 ++ "+" ++ repChar '-' 21 ++ "+" ++ "\n"
  let nm ← getScalar status_dict "name"
  let ss := ss ++ "|" ++ padSpaceLeft 40 ("Param Name (" ++ nm ++ ")") ++ " | "
      ++ padSpaceLeft 20 "Value" ++ "|" ++ "\n"
  let bk ← getScalar status_dict "backend"
  let ss := ss ++ "|" ++ padSpaceLeft 40 ("Backend: " ++ bk) ++ " | "
      ++ padSpaceLeft 20 "" ++ "|" ++ "\n"
  let ss := ss ++ "+" ++ repChar '-' 41 ++ "+" ++ repChar '-' 21 ++ "+" ++ "\n"
  match one_loop status_dict ss description_str with
  | (ss, ds) =>
    let ss := ss ++ "+" ++ repChar '-' 41 ++ "+" ++ repChar '-' 21 ++ "+" ++ "\n"
    let ss := if short_print then ss
      else ss ++ "Note: " ++ "\n" ++ ds ++ "+" ++ repChar '-' 63 ++ "+"
    pure ss

/-- The Enhancement-cell computation of `make_two_models_summary_str`
(formatter.py lines 151-177): parse both metrics, default a null comparative
tag to NONE, short-circuit on mismatched non-empty units, otherwise resolve
a string tag (possibly failing like `Comparative(comp)`), run the comparison
and turn its outcome into the displayed token or 2-decimal number, with an
`x` suffix unless the mode is DIFF. -/
def comparison_cell (sv sv2 : Metric) : String :=
  match parse_metric sv, parse_metric sv2 with
  | (_, value_1, units_1, comp0, _), (_, value_2, units_2, _, _) =>
    let comp := match comp0 with
      | CompTag.null => CompTag.mode Comparative.none
      | c => c
    if units_1 ≠ "" ∧ units_2 ≠ "" ∧ units_1 ≠ units_2 then
      "<Unsupported units>"
    else
      let attempt : Except CompErr (Comparative × Option ℚ) :=
        match comp with
        | CompTag.str s =>
            match Comparative.ofString s with
            | Except.error e => Except.error e
            | Except.ok c =>
                (compare_status_values c value_1 value_2).map (fun r => (c, r))
        | CompTag.mode c =>
            (compare_status_values c value_1 value_2).map (fun r => (c, r))
        | CompTag.null =>
            (compare_status_values Comparative.none value_1 value_2).map
              (fun r => (Comparative.none, r))
      match attempt with
      | Except.error CompErr.zeroDiv => "INF"
      | Except.error CompErr.valueErr => "<Error Comparing>"
      | Except.ok (_, Option.none) => "---"
      | Except.ok (c, Option.some rval) =>
          formatFixed 2 rval ++ (if c ≠ Comparative.diff then "x" else "")

/-- One row of the two-model table (formatter.py lines 179-184): label with
the first profile's units in a 40-wide column, the Enhancement cell in a
25-wide column, then both values in 25-wide columns with 4 decimals. -/
def two_row (sv sv2 : Metric) : String :=
  match parse_metric sv, parse_metric sv2 with
  | (text, value_1, units_1, _, _), (_, value_2, _, _, _) =>
    let val := comparison_cell sv sv2
    let print_str := text ++ " (" ++ units_1 ++ ")"
    "|" ++ padSpaceLeft 40 print_str ++ " | " ++ padSpaceLeft 25 val ++ "| "
      ++ formatValueCell 25 value_1 ++ "| " ++ formatValueCell 25 value_2 ++ "|"

/-- The metric loop of `make_two_models_summary_str` (formatter.py lines
148-185): iterates the first mapping's items in order; a key also present in
the second mapping whose first-mapping entry is a Metric produces a row.
The second mapping's entry is fed to `parse_metric` unconditionally, so a
non-Metric entry there raises an AttributeError. -/
def two_loop (status_dict_2 : StatusDict) :
    List (String × Entry) → String → String → Except PyErr (String × String)
  | [], summary_str, description_str => Except.ok (summary_str, description_str)
  | (_, Entry.scalar _) :: rest, summary_str, description_str =>
      two_loop status_dict_2 rest summary_str description_str
  | (sk, Entry.metric sv) :: rest, summary_str, description_str =>
      match lookup status_dict_2 sk with
      | Option.none => two_loop status_dict_2 rest summary_str description_str
      | Option.some (Entry.scalar _) => Except.error PyErr.attributeError
      | Option.some (Entry.metric sv2) =>
          two_loop status_dict_2 rest (summary_str ++ two_row sv sv2 ++ "\n")
            (description_str ++ "* " ++ sv.friendly_name ++ ": " ++ sv.description ++ "\n")

/-- Translation of `make_two_models_summary_str` (formatter.py lines
127-195) with `line_length, col0_length, col1_length, col2_length,
col3_length = 122, 40, 25, 25, 25`. -/
def make_two_models_summary_str (status_dict status_dict_2 : StatusDict)
    (short_print : Bool := true) (description_str : String := "")
    (summary_str : String := "\n") : Except PyErr String := do
  let hborder := "+" ++ repChar '-' 41 ++ "+" ++ repChar '-' 26 ++ "+"
      ++ repChar '-' 26 ++ "+" ++ repChar '-' 26 ++ "+" ++ "\n"
  let ss := summary_str ++ "+" ++ repChar '-' 122 ++ "+" ++ "\n"
  let ss := ss ++ "|" ++ padCenter 122 "Deeplite Profiler" ++ "|" ++ "\n"
  let ss := ss ++ hborder
  let nm ← getScalar status_dict "name"
  let nm2 ← getScalar status_dict_2 "name"
  let ss := ss ++ "|" ++ padSpaceLeft 40 "Param Name" ++ " | "
      ++ padSpaceLeft 25 "Enhancement" ++ "| "
      ++ padSpaceLeft 25 ("Value (" ++ nm ++ ")") ++ "| "
      ++ padSpaceLeft 25 ("Value (" ++ nm2 ++ ")") ++ "|" ++ "\n"
  let bk ← getScalar status_dict "backend"
  let bk2 ← getScalar status_dict_2 "backend"
  let ss := ss ++ "|" ++ padSpaceLeft 40 "" ++ " | " ++ padSpaceLeft 25 "" ++ "| "
      ++ padSpaceLeft 25 ("Backend: " ++ bk) ++ "| "
      ++ padSpaceLeft 25 ("Backend: " ++ bk2) ++ "|" ++ "\n"
  let ss := ss ++ hborder
  match ← two_loop status_dict_2 status_dict ss description_str with
  | (ss, ds) =>
    let ss := ss ++ hborder
    let ss := if short_print then ss
      else ss ++ "Note: " ++ "\n" ++ ds ++ "+" ++ repChar '-' 122 ++ "+"
    pure ss

/-- The canonical priority sequence of `default_display_filter_function`
(formatter.py line 211). -/
def canonical_order : List String :=
  ["eval_metric", "model_size", "flops", "total_params", "memory_footprint",
    "execution_time"]

/-- The full key sequence the ordering policy walks (formatter.py lines
211-213): the canonical priority keys followed by the input's leftover keys,
where the leftovers are the input's key set minus `inference_time` and the
canonical keys. -/
def display_filter_keys (status_dict : StatusDict) : List String :=
  let leftovers := (status_dict.map Prod.fst).dedup.filter
    (fun k => !(k = "inference_time" || canonical_order.contains k))
  canonical_order ++ leftovers

/-- Translation of `default_display_filter_function` (formatter.py lines
198-220): walk the key sequence and copy each key present in the input,
with its value, into a new mapping. -/
def default_display_filter_function (status_dict : StatusDict) : StatusDict :=
  (display_filter_keys status_dict).filterMap
    (fun k => (lookup status_dict k).map (fun v => (k, v)))

/-- One iteration of the copying loop of `default_display_filter_function`
(formatter.py lines 216-218), with both Python objects the iteration can
touch threaded explicitly: the state is (input mapping, new mapping), the
input is only read (`in`, `[]`) and only the new mapping is written. -/
def display_filter_step (k : String) :
    StatusDict × StatusDict → StatusDict × StatusDict
  | (status_dict, new_status_dict) =>
    match lookup status_dict k with
    | Option.some v => (status_dict, new_status_dict ++ [(k, v)])
    | Option.none => (status_dict, new_status_dict)

/-- `default_display_filter_function` with the mutable state of its loop
made explicit: starts from a freshly created empty new mapping and returns
both final objects (input mapping, new mapping). -/
def default_display_filter_run (status_dict : StatusDict) :
    StatusDict × StatusDict :=
  (display_filter_keys status_dict).foldl
    (fun st k => display_filter_step k st) (status_dict, [])

/-- The comparative mode the Enhancement cell ends up comparing with: the
first profile's parsed tag, with a null tag defaulted to NONE and a string
tag resolved through `Comparative.ofString` (which can fail). -/
def resolved_comparative (sv : Metric) : Except CompErr Comparative :=
  match (parse_metric sv).2.2.2.1 with
  | CompTag.null => Except.ok Comparative.none
  | CompTag.mode c => Except.ok c
  | CompTag.str s => Comparative.ofString s

/-- The table row an item of the first status mapping contributes to the
two-model report: a rendered row (with trailing newline) when the key is
shared and both entries are Metrics, nothing otherwise. -/
def row_of (status_dict_2 : StatusDict) (kv : String × Entry) : String :=
  match kv.2, lookup status_dict_2 kv.1 with
  | Entry.metric sv, Option.some (Entry.metric sv2) => two_row sv sv2 ++ "\n"
  | _, _ => ""

/-- The footnote line an item of the first status mapping contributes to the
two-model report. -/
def note_of (kv : String × Entry) : String :=
  match kv.2 with
  | Entry.metric sv => "* " ++ sv.friendly_name ++ ": " ++ sv.description ++ "\n"
  | Entry.scalar _ => ""

/-- Two metric objects that agree on everything except (possibly) their
comparative tag. -/
def Metric.sameExceptComparative (m m' : Metric) : Bool :=
  decide (m.friendly_name = m'.friendly_name) && decide (m.value = m'.value)
    && decide (m.units = m'.units) && decide (m.description = m'.description)

/-- Two status-mapping entries that agree on everything except (possibly)
the comparative tag of a Metric entry. -/
def Entry.sameExceptComparative : Entry → Entry → Bool
  | Entry.metric m, Entry.metric m' => m.sameExceptComparative m'
  | Entry.scalar s, Entry.scalar s' => decide (s = s')
  | _, _ => false

/-- Two status mappings that agree on keys, key order and every entry except
(possibly) the comparative tags of Metric entries. -/
def statusSameExceptComparative : StatusDict → StatusDict → Bool
  | [], [] => true
  | (k, e) :: rest, (k', e') :: rest' =>
      decide (k = k') && e.sameExceptComparative e'
        && statusSameExceptComparative rest rest'
  | _, _ => false

/-- Sample metric: value 10, units MB, RATIO comparative. -/
def mRatioMB10 : Metric :=
  { friendly_name := "Model Size", value := Option.some 10,
    units := Option.some "MB", comparative := CompTag.mode Comparative.ratio,
    description := "size" }

/-- Sample metric: value 5, units MB, RATIO comparative. -/
def mRatioMB5 : Metric :=
  { friendly_name := "Model Size", value := Option.some 5,
    units := Option.some "MB", comparative := CompTag.mode Comparative.ratio,
    description := "size" }

/-- Sample metric: value 5, units MB, DIFF comparative. -/
def mDiffMB5 : Metric :=
  { friendly_name := "Model Size", value := Option.some 5,
    units := Option.some "MB", comparative := CompTag.mode Comparative.diff,
    description := "size" }

/-- Sample metric: value 5, units KB, RATIO comparative. -/
def mRatioKB5 : Metric :=
  { friendly_name := "Model Size", value := Option.some 5,
    units := Option.some "KB", comparative := CompTag.mode Comparative.ratio,
    description := "size" }

/-- Sample metric with an absent value. -/
def mAbsent : Metric :=
  { friendly_name := "FLOPs", value := Option.none,
    units := Option.some "G", comparative := CompTag.mode Comparative.ratio,
    description := "flop count" }

/-- Sample profile status mapping for the first model. -/
def dictA : StatusDict :=
  [("name", Entry.scalar "m1"), ("backend", Entry.scalar "torch"),
    ("model_size", Entry.metric mRatioMB10), ("extra", Entry.scalar "junk")]

/-- Sample profile status mapping for the second model. -/
def dictB : StatusDict :=
  [("name", Entry.scalar "m2"), ("backend", Entry.scalar "torch"),
    ("model_size", Entry.metric mRatioMB5)]

/-- `dictB` with only the comparative tag of its metric changed. -/
def dictB' : StatusDict :=
  [("name", Entry.scalar "m2"), ("backend", Entry.scalar "torch"),
    ("model_size", Entry.metric mDiffMB5)]

/-- Sample status mapping whose metrics all have absent values. -/
def dictAbsent : StatusDict :=
  [("name", Entry.scalar "m1"), ("backend", Entry.scalar "torch"),
    ("flops", Entry.metric mAbsent)]

/-- Sample metric: value 10, units MB, NONE comparative. -/
def mNoneMB10 : Metric :=
  { friendly_name := "Model Size", value := Option.some 10,
    units := Option.some "MB", comparative := CompTag.mode Comparative.none,
    description := "size" }

/-- Sample first-profile mapping whose metric carries the NONE comparative. -/
def dictE : StatusDict :=
  [("name", Entry.scalar "m1"), ("backend", Entry.scalar "torch"),
    ("model_size", Entry.metric mNoneMB10), ("extra", Entry.scalar "junk"),
    ("only_here", Entry.metric mNoneMB10)]

/-- Sample second-profile mapping sharing only the `model_size` key. -/
def dictF : StatusDict :=
  [("name", Entry.scalar "m2"), ("backend", Entry.scalar "torch"),
    ("model_size", Entry.metric mRatioMB5)]

/-- Every key of the first mapping that holds a Metric and is shared with
the second mapping finds a Metric there too (the data-model shape of §3
under which the two-model renderer never meets a non-Metric on the second
side). -/
def bEntriesMetricFor (status_dict status_dict_2 : StatusDict) : Bool :=
  status_dict.all fun kv =>
    match kv.2, lookup status_dict_2 kv.1 with
    | Entry.metric _, Option.some e2 => e2.isMetric
    | _, _ => true

/-- Every Metric entry of the mapping has an absent value. -/
def allValuesAbsent (status_dict : StatusDict) : Bool :=
  status_dict.all fun kv =>
    match kv.2 with
    | Entry.metric m => m.value.isNone
    | Entry.scalar _ => true

/-! ## Theorems -/

/-- C6: for every metric object, `parse_metric` returns the 5-tuple
(friendly name, value, units, comparative, description); when the value is
absent the value is the NotComputed placeholder, the units are empty and the
comparative is NONE; otherwise the value is passed through as a number, the
units default to the empty string only when null, and the comparative tag is
passed through; the description is passed through in both cases. -/
theorem parse_metric_spec (m : Metric) :
    (m.value = Option.none →
      parse_metric m = (m.friendly_name, MetricValue.notComputed, "",
        CompTag.mode Comparative.none, m.description))
    ∧ (∀ v, m.value = Option.some v →
        (m.units = Option.none →
          parse_metric m = (m.friendly_name, MetricValue.computed v, "",
            m.comparative, m.description))
        ∧ (∀ u, m.units = Option.some u →
          parse_metric m = (m.friendly_name, MetricValue.computed v, u,
            m.comparative, m.description))) :=
  ⟨fun h => by simp [parse_metric, h],
   fun v hv =>
    ⟨fun hu => by simp [parse_metric, hv, hu],
     fun u hu => by simp [parse_metric, hv, hu]⟩⟩

/-- Witness for C6: `parse_metric` evaluated on a metric with an absent
value and on a metric with a present value and units. -/
theorem parse_metric_spec_witness :
    parse_metric { friendly_name := "FLOPs", value := Option.none,
                   units := Option.some "G",
                   comparative := CompTag.mode Comparative.ratio,
                   description := "flop count" }
      = ("FLOPs", MetricValue.notComputed, "", CompTag.mode Comparative.none,
        "flop count")
    ∧ parse_metric { friendly_name := "Model Size", value := Option.some 10,
                     units := Option.some "MB",
                     comparative := CompTag.mode Comparative.ratio,
                     description := "size" }
      = ("Model Size", MetricValue.computed 10, "MB",
        CompTag.mode Comparative.ratio, "size") :=
  ⟨(parse_metric_spec _).1 rfl, ((parse_metric_spec _).2 10 rfl).2 "MB" rfl⟩

/-- The copying loop of the ordering policy, run from any accumulator:
the input mapping component of the state is never written. -/
theorem display_filter_run_loop (d : StatusDict) :
    ∀ (L : List String) (acc : StatusDict),
      L.foldl (fun st k => display_filter_step k st) (d, acc)
        = (d, acc ++ L.filterMap fun k => (lookup d k).map fun v => (k, v)) := by
  intro L
  induction L with
  | nil => simp
  | cons k rest ih =>
    intro acc
    rw [List.foldl_cons, List.filterMap_cons]
    cases h : lookup d k with
    | none =>
      rw [show display_filter_step k (d, acc) = (d, acc) by
        simp [display_filter_step, h]]
      simp [ih]
    | some v =>
      rw [show display_filter_step k (d, acc) = (d, acc ++ [(k, v)]) by
        simp [display_filter_step, h]]
      simp [ih]

/-- C9: `default_display_filter_function` builds a new mapping starting from
an empty one and leaves its input mapping exactly as it was — running its
loop with both Python objects (input mapping, new mapping) threaded as
explicit state returns the untouched input alongside the result. -/
theorem display_filter_no_mutation (d : StatusDict) :
    default_display_filter_run d = (d, default_display_filter_function d) := by
  rw [default_display_filter_run, default_display_filter_function,
    display_filter_run_loop]
  simp

/-- Looking a key up in a status mapping fails exactly when the key is
absent from the mapping's key list. -/
theorem lookup_eq_none_iff (d : StatusDict) (k : String) :
    lookup d k = Option.none ↔ k ∉ d.map Prod.fst := by
  induction d with
  | nil => simp [lookup]
  | cons kv rest ih =>
    obtain ⟨k', v⟩ := kv
    by_cases h : k' = k
    · subst h
      simp [lookup]
    · have h' : ¬k = k' := fun hh => h hh.symm
      rw [lookup, if_neg h, ih]
      simp [List.mem_cons, h']

/-- Looking a key up in the mapping rebuilt from a duplicate-free key walk
agrees with the source mapping on walked keys and is empty elsewhere. -/
theorem lookup_filterMap (d : StatusDict) (k : String) :
    ∀ (L : List String), L.Nodup →
      lookup (L.filterMap fun k' => (lookup d k').map fun v => (k', v)) k
        = if k ∈ L then lookup d k else Option.none := by
  intro L
  induction L with
  | nil => simp [lookup]
  | cons a L ih =>
    intro hL
    rw [List.nodup_cons] at hL
    obtain ⟨ha, hL⟩ := hL
    cases hda : lookup d a with
    | none =>
      rw [List.filterMap_cons, hda]
      simp only [Option.map_none']
      rw [ih hL]
      by_cases hk : k = a
      · subst hk
        simp [hda, ha]
      · simp [List.mem_cons, hk]
    | some v =>
      rw [List.filterMap_cons, hda]
      simp only [Option.map_some']
      rw [lookup]
      by_cases hk : a = k
      · subst hk
        simp [hda]
      · have hk' : ¬k = a := fun hh => hk hh.symm
        rw [if_neg hk, ih hL]
        simp [List.mem_cons, hk']

/-- The key list of the mapping rebuilt from a key walk: the walked keys
that are present in the source. -/
theorem map_fst_filterMap (d : StatusDict) (L : List String) :
    (L.filterMap fun k => (lookup d k).map fun v => (k, v)).map Prod.fst
      = L.filter fun k => (lookup d k).isSome := by
  induction L with
  | nil => rfl
  | cons a L ih =>
    rw [List.filterMap_cons, List.filter_cons]
    cases h : lookup d a <;> simp [h, ih]

/-- The key walk of the ordering policy has no duplicate keys. -/
theorem display_filter_keys_nodup (d : StatusDict) :
    (display_filter_keys d).Nodup := by
  unfold display_filter_keys
  refine List.Nodup.append (by decide) (((d.map Prod.fst).nodup_dedup).filter _) ?_
  intro a ha hb
  rw [List.mem_filter] at hb
  simp at hb
  exact hb.2.2 ha

/-- `inference_time` is never walked by the ordering policy. -/
theorem inference_time_not_mem_keys (d : StatusDict) :
    "inference_time" ∉ display_filter_keys d := by
  unfold display_filter_keys
  intro h
  rcases List.mem_append.mp h with h | h
  · revert h
    decide
  · rw [List.mem_filter] at h
    simp at h

/-- C2: the ordering policy returns a mapping with exactly the input's keys
minus `inference_time`, each bound to its input value (stated as: looking up
`inference_time` fails and looking up any other key agrees with the input);
its key list is the canonical keys present in the input, in the fixed
canonical order, followed only by non-canonical keys of the input; and the
empty mapping maps to the empty mapping. -/
theorem display_filter_order_spec :
    (∀ d : StatusDict,
      lookup (default_display_filter_function d) "inference_time" = Option.none
      ∧ (∀ k, k ≠ "inference_time" →
          lookup (default_display_filter_function d) k = lookup d k)
      ∧ ∃ leftover,
          (default_display_filter_function d).map Prod.fst
            = (canonical_order.filter fun k => (lookup d k).isSome) ++ leftover
          ∧ ∀ k ∈ leftover,
              k ∉ canonical_order ∧ k ≠ "inference_time" ∧ k ∈ d.map Prod.fst)
    ∧ default_display_filter_function [] = [] := by
  refine ⟨fun d => ⟨?_, ?_, ?_⟩, by decide⟩
  · rw [default_display_filter_function,
      lookup_filterMap d _ _ (display_filter_keys_nodup d),
      if_neg (inference_time_not_mem_keys d)]
  · intro k hk
    rw [default_display_filter_function,
      lookup_filterMap d _ _ (display_filter_keys_nodup d)]
    by_cases hmem : k ∈ display_filter_keys d
    · rw [if_pos hmem]
    · rw [if_neg hmem]
      cases hdk : lookup d k with
      | none => rfl
      | some v =>
        exfalso
        apply hmem
        have hkd : k ∈ d.map Prod.fst := by
          by_contra hm
          rw [← lookup_eq_none_iff] at hm
          exact absurd hdk (by rw [hm]; simp)
        have hcan : k ∉ canonical_order := fun hc =>
          hmem (List.mem_append.mpr (Or.inl hc))
        refine List.mem_append.mpr (Or.inr ?_)
        rw [List.mem_filter]
        refine ⟨List.mem_dedup.mpr hkd, ?_⟩
        simp [hk, hcan]
  · rw [default_display_filter_function, map_fst_filterMap,
      display_filter_keys, List.filter_append]
    refine ⟨_, rfl, fun k hkf => ?_⟩
    rw [List.mem_filter] at hkf
    obtain ⟨hk1, _⟩ := hkf
    rw [List.mem_filter] at hk1
    obtain ⟨hdedup, hpred⟩ := hk1
    have hkd : k ∈ d.map Prod.fst := List.mem_dedup.mp hdedup
    simp at hpred
    exact ⟨hpred.2, hpred.1, hkd⟩

/-- Witness for C2: the ordering policy applied to a mapping holding
`inference_time`, a canonical key and a custom key. -/
theorem display_filter_order_spec_witness :
    lookup (default_display_filter_function
        [("inference_time", Entry.scalar "i"), ("flops", Entry.scalar "f"),
          ("custom_x", Entry.scalar "c")]) "inference_time" = Option.none
    ∧ lookup (default_display_filter_function
        [("inference_time", Entry.scalar "i"), ("flops", Entry.scalar "f"),
          ("custom_x", Entry.scalar "c")]) "flops"
      = Option.some (Entry.scalar "f") :=
  ⟨(display_filter_order_spec.1 _).1,
   by rw [(display_filter_order_spec.1 _).2.1 "flops" (by decide)]; rfl⟩

/-- Restricting a key walk to the keys present in the source does not change
the rebuilt mapping. -/
theorem filterMap_filter_isSome (d : StatusDict) (L : List String) :
    ((L.filter fun k => (lookup d k).isSome).filterMap
        fun k => (lookup d k).map fun v => (k, v))
      = L.filterMap fun k => (lookup d k).map fun v => (k, v) := by
  induction L with
  | nil => rfl
  | cons a L ih =>
    rw [List.filter_cons]
    cases h : lookup d a with
    | none => simpa [h] using ih
    | some v => simpa [h, List.filterMap_cons] using ih

/-- Filtering an append whose left part never satisfies the predicate and
whose right part always does keeps exactly the right part. -/
theorem filter_append_of (p : String → Bool) (l₁ l₂ : List String)
    (h1 : ∀ a ∈ l₁, p a = false) (h2 : ∀ a ∈ l₂, p a = true) :
    (l₁ ++ l₂).filter p = l₂ := by
  rw [List.filter_append,
    List.filter_eq_nil_iff.mpr (fun a ha => by simp [h1 a ha]),
    List.filter_eq_self.mpr h2, List.nil_append]

/-- C10: the ordering policy is idempotent — applying
`default_display_filter_function` to its own output returns that output
unchanged (same keys, same order, same values). -/
theorem display_filter_idempotent (d : StatusDict) :
    default_display_filter_function (default_display_filter_function d)
      = default_display_filter_function d := by
  have hkeysnd := display_filter_keys_nodup d
  -- the output's key list and its lookups
  have hkeys : (default_display_filter_function d).map Prod.fst
      = (display_filter_keys d).filter fun k => (lookup d k).isSome := by
    rw [default_display_filter_function, map_fst_filterMap]
  have hlookup : ∀ k ∈ display_filter_keys d,
      lookup (default_display_filter_function d) k = lookup d k := by
    intro k hk
    rw [default_display_filter_function, lookup_filterMap d _ _ hkeysnd,
      if_pos hk]
  -- the second walk's key list
  have hwalk : display_filter_keys (default_display_filter_function d)
      = canonical_order
        ++ ((d.map Prod.fst).dedup.filter
              (fun k => !(k = "inference_time" || canonical_order.contains k))).filter
            (fun k => (lookup d k).isSome) := by
    rw [display_filter_keys, hkeys]
    congr 1
    have hnd : ((display_filter_keys d).filter
        fun k => (lookup d k).isSome).Nodup := hkeysnd.filter _
    rw [List.Nodup.dedup hnd, display_filter_keys, List.filter_append]
    apply filter_append_of
    · intro a ha
      rw [List.mem_filter] at ha
      have hc : canonical_order.contains a = true :=
        List.elem_eq_true_of_mem ha.1
      simp [hc]
      exact fun _ => ha.1
    · intro a ha
      rw [List.mem_filter] at ha
      have ha1 := ha.1
      rw [List.mem_filter] at ha1
      exact ha1.2
  rw [show default_display_filter_function (default_display_filter_function d)
      = (display_filter_keys (default_display_filter_function d)).filterMap
          (fun k => (lookup (default_display_filter_function d) k).map
            fun v => (k, v)) from rfl]
  rw [hwalk]
  rw [List.filterMap_congr (g := fun k => (lookup d k).map fun v => (k, v)) ?_]
  · rw [List.filterMap_append, filterMap_filter_isSome,
      default_display_filter_function, display_filter_keys,
      List.filterMap_append]
  · intro k hk
    rcases List.mem_append.mp hk with hc | hlf
    · rw [hlookup k (List.mem_append.mpr (Or.inl hc))]
    · rw [List.mem_filter] at hlf
      exact hlookup k (List.mem_append.mpr (Or.inr hlf.1)) ▸ rfl

/-- C4: when both profiles report non-empty units for a key and they differ,
the Enhancement cell is exactly the `<Unsupported units>` token, no
ratio or difference is computed, and the row still renders both raw values
through the 4-decimal value cells. -/
theorem units_mismatch_spec (sv sv2 : Metric)
    (h1 : (parse_metric sv).2.2.1 ≠ "") (h2 : (parse_metric sv2).2.2.1 ≠ "")
    (hne : (parse_metric sv).2.2.1 ≠ (parse_metric sv2).2.2.1) :
    comparison_cell sv sv2 = "<Unsupported units>"
    ∧ two_row sv sv2
      = "|" ++ padSpaceLeft 40
            ((parse_metric sv).1 ++ " (" ++ (parse_metric sv).2.2.1 ++ ")")
        ++ " | " ++ padSpaceLeft 25 "<Unsupported units>" ++ "| "
        ++ formatValueCell 25 (parse_metric sv).2.1 ++ "| "
        ++ formatValueCell 25 (parse_metric sv2).2.1 ++ "|" := by
  rcases hp1 : parse_metric sv with ⟨t1, v1, u1, c0, dd1⟩
  rcases hp2 : parse_metric sv2 with ⟨t2, v2, u2, c2, dd2⟩
  rw [hp1] at h1 hne
  rw [hp2] at h2 hne
  have hcell : comparison_cell sv sv2 = "<Unsupported units>" := by
    rw [comparison_cell, hp1, hp2]
    simp only []
    exact if_pos ⟨h1, h2, hne⟩
  refine ⟨hcell, ?_⟩
  rw [two_row, hp1, hp2]
  simp only [hcell]

/-- The Enhancement cell, rewritten through the resolved comparative: when
the units do not mismatch, the cell is the dispatch over resolving the first
profile's comparative tag and running the comparison. -/
theorem comparison_cell_eq (sv sv2 : Metric)
    (hu : ¬((parse_metric sv).2.2.1 ≠ "" ∧ (parse_metric sv2).2.2.1 ≠ ""
      ∧ (parse_metric sv).2.2.1 ≠ (parse_metric sv2).2.2.1)) :
    comparison_cell sv sv2
      = match (match resolved_comparative sv with
               | Except.error e => Except.error e
               | Except.ok c =>
                  (compare_status_values c (parse_metric sv).2.1
                    (parse_metric sv2).2.1).map (fun r => (c, r))) with
        | Except.error CompErr.zeroDiv => "INF"
        | Except.error CompErr.valueErr => "<Error Comparing>"
        | Except.ok (_, Option.none) => "---"
        | Except.ok (c, Option.some rval) =>
            formatFixed 2 rval ++ (if c ≠ Comparative.diff then "x" else "") := by
  rcases hp1 : parse_metric sv with ⟨t1, v1, u1, c0, dd1⟩
  rcases hp2 : parse_metric sv2 with ⟨t2, v2, u2, c2, dd2⟩
  rw [hp1] at hu
  rw [hp2] at hu
  rw [comparison_cell, resolved_comparative, hp1, hp2]
  simp only []
  rw [if_neg hu]
  cases c0 <;> rfl

/-- C3: in a row whose units do not mismatch, the Enhancement cell is
`---` when the resolved comparative is NONE; `INF` when a RATIO comparison
has denominator zero; `<Error Comparing>` when the comparative tag is a
string not naming a known variant; and otherwise the comparison result to 2
decimal places, suffixed with `x` exactly when the mode is not DIFF. -/
theorem enhancement_cell_spec (sv sv2 : Metric)
    (hu : ¬((parse_metric sv).2.2.1 ≠ "" ∧ (parse_metric sv2).2.2.1 ≠ ""
      ∧ (parse_metric sv).2.2.1 ≠ (parse_metric sv2).2.2.1)) :
    (resolved_comparative sv = Except.ok Comparative.none →
      comparison_cell sv sv2 = "---")
    ∧ (resolved_comparative sv = Except.ok Comparative.ratio →
      (parse_metric sv).2.1 = MetricValue.computed 0 →
      (∃ b, (parse_metric sv2).2.1 = MetricValue.computed b) →
      comparison_cell sv sv2 = "INF")
    ∧ (∀ s, (parse_metric sv).2.2.2.1 = CompTag.str s →
      Comparative.ofString s = Except.error CompErr.valueErr →
      comparison_cell sv sv2 = "<Error Comparing>")
    ∧ (∀ c r, resolved_comparative sv = Except.ok c →
      compare_status_values c (parse_metric sv).2.1 (parse_metric sv2).2.1
        = Except.ok (Option.some r) →
      comparison_cell sv sv2
        = formatFixed 2 r ++ (if c ≠ Comparative.diff then "x" else "")) := by
  refine ⟨?_, ?_, ?_, ?_⟩
  · intro h
    rw [comparison_cell_eq sv sv2 hu, h]
    rfl
  · intro h h0 hb
    obtain ⟨b, hb⟩ := hb
    rw [comparison_cell_eq sv sv2 hu, h, h0, hb]
    simp [compare_status_values, Except.map]
  · intro s hs hofs
    rw [comparison_cell_eq sv sv2 hu, resolved_comparative, hs]
    simp [hofs]
  · intro c r h hc
    rw [comparison_cell_eq sv sv2 hu, h]
    simp [hc, Except.map]

/-- Witness for C4: MB against KB yields the literal token. -/
theorem units_mismatch_spec_witness :
    comparison_cell mRatioMB10 mRatioKB5 = "<Unsupported units>" :=
  (units_mismatch_spec mRatioMB10 mRatioKB5 (by decide) (by decide)
    (by decide)).1

/-- Witness for C3: RATIO over values 10 and 5 with matching MB units
renders `0.50x`. -/
theorem enhancement_cell_spec_witness :
    comparison_cell mRatioMB10 mRatioMB5 = "0.50x" := by
  have hcomp : compare_status_values Comparative.ratio
      (parse_metric mRatioMB10).2.1 (parse_metric mRatioMB5).2.1
      = Except.ok (Option.some (Rat.divInt 1 2)) := by
    rw [Rat.divInt_eq_div]
    norm_num [compare_status_values, parse_metric, mRatioMB10, mRatioMB5]
  rw [(enhancement_cell_spec mRatioMB10 mRatioMB5 (by decide)).2.2.2
    Comparative.ratio (Rat.divInt 1 2) rfl hcomp]
  decide

/-- Folding string concatenation from any accumulator is the accumulator
followed by the join. -/
theorem string_join_eq (l : List String) :
    ∀ s : String, l.foldl (fun r t => r ++ t) s = s ++ String.join l := by
  induction l with
  | nil =>
    intro s
    rw [List.foldl_nil]
    exact (String.append_empty s).symm
  | cons a l ih =>
    intro s
    rw [List.foldl_cons, ih]
    have h2 : String.join (a :: l) = ("" ++ a) ++ String.join l := by
      rw [show String.join (a :: l) = (a :: l).foldl (fun r t => r ++ t) "" from
        rfl, List.foldl_cons, ih]
    rw [h2, String.empty_append, String.append_assoc]

/-- Joining a cons: head followed by the join of the tail. -/
theorem string_join_cons (a : String) (l : List String) :
    String.join (a :: l) = a ++ String.join l := by
  rw [show String.join (a :: l) = (a :: l).foldl (fun r t => r ++ t) "" from rfl,
    List.foldl_cons, string_join_eq, String.empty_append]

/-- The two-model metric loop, run from any accumulators: under the
data-model shape (§3) for the second mapping, it returns the accumulators
extended with exactly one rendered row and one footnote line per item of the
first mapping whose key is shared and whose entry is a Metric. -/
theorem two_loop_join (status_dict_2 : StatusDict) :
    ∀ (a : List (String × Entry)),
      bEntriesMetricFor a status_dict_2 = true →
      ∀ ss ds : String,
      two_loop status_dict_2 a ss ds
        = Except.ok
            (ss ++ String.join
              ((a.filter fun kv =>
                  (lookup status_dict_2 kv.1).isSome && kv.2.isMetric).map
                (row_of status_dict_2)),
             ds ++ String.join
              ((a.filter fun kv =>
                  (lookup status_dict_2 kv.1).isSome && kv.2.isMetric).map
                note_of)) := by
  intro a
  induction a with
  | nil =>
    intro _ ss ds
    simp [two_loop, String.append_empty, String.join]
  | cons kv rest ih =>
    intro hb ss ds
    obtain ⟨k, e⟩ := kv
    rw [bEntriesMetricFor, List.all_cons, Bool.and_eq_true] at hb
    obtain ⟨hb1, hb2⟩ := hb
    rw [← bEntriesMetricFor] at hb2
    cases e with
    | scalar s0 =>
      rw [show two_loop status_dict_2 ((k, Entry.scalar s0) :: rest) ss ds
          = two_loop status_dict_2 rest ss ds from rfl, ih hb2 ss ds]
      simp [List.filter_cons, Entry.isMetric]
    | metric sv =>
      cases hlk : lookup status_dict_2 k with
      | none =>
        rw [show two_loop status_dict_2 ((k, Entry.metric sv) :: rest) ss ds
            = (match lookup status_dict_2 k with
               | Option.none => two_loop status_dict_2 rest ss ds
               | Option.some (Entry.scalar _) =>
                  Except.error PyErr.attributeError
               | Option.some (Entry.metric sv2) =>
                  two_loop status_dict_2 rest (ss ++ two_row sv sv2 ++ "\n")
                    (ds ++ "* " ++ sv.friendly_name ++ ": "
                      ++ sv.description ++ "\n")) from rfl, hlk, ih hb2 ss ds]
        simp [List.filter_cons, hlk]
      | some e2 =>
        cases e2 with
        | scalar s2 =>
          exfalso
          rw [hlk] at hb1
          simp [Entry.isMetric] at hb1
        | metric sv2 =>
          have hstep : two_loop status_dict_2 ((k, Entry.metric sv) :: rest) ss ds
              = two_loop status_dict_2 rest (ss ++ two_row sv sv2 ++ "\n")
                (ds ++ "* " ++ sv.friendly_name ++ ": "
                  ++ sv.description ++ "\n") := by
            rw [show two_loop status_dict_2 ((k, Entry.metric sv) :: rest) ss ds
                = (match lookup status_dict_2 k with
                   | Option.none => two_loop status_dict_2 rest ss ds
                   | Option.some (Entry.scalar _) =>
                      Except.error PyErr.attributeError
                   | Option.some (Entry.metric sv2) =>
                      two_loop status_dict_2 rest (ss ++ two_row sv sv2 ++ "\n")
                        (ds ++ "* " ++ sv.friendly_name ++ ": "
                          ++ sv.description ++ "\n")) from rfl, hlk]
          rw [hstep, ih hb2 (ss ++ two_row sv sv2 ++ "\n")
            (ds ++ "* " ++ sv.friendly_name ++ ": " ++ sv.description ++ "\n")]
          have hrow : row_of status_dict_2 (k, Entry.metric sv)
              = two_row sv sv2 ++ "\n" := by
            rw [row_of]
            simp [hlk]
          have hnote : note_of (k, Entry.metric sv)
              = "* " ++ sv.friendly_name ++ ": " ++ sv.description ++ "\n" := by
            rw [note_of]
          simp [List.filter_cons, hlk, Entry.isMetric, hrow, hnote,
            string_join_cons, String.append_assoc]

/-- C5: the two-model renderer's loop emits a table row for an item of the
first mapping exactly when the item's key is also present in the second
mapping and the item's entry is a Metric; keys present on one side only,
the reserved scalar entries and other non-Metric entries produce no row,
and (under the §3 data-model shape of the second mapping) no error is
raised. -/
theorem two_models_row_emission_spec (status_dict_2 : StatusDict)
    (a : List (String × Entry)) (hb : bEntriesMetricFor a status_dict_2 = true)
    (ss ds : String) :
    two_loop status_dict_2 a ss ds
      = Except.ok
          (ss ++ String.join
            ((a.filter fun kv =>
                (lookup status_dict_2 kv.1).isSome && kv.2.isMetric).map
              (row_of status_dict_2)),
           ds ++ String.join
            ((a.filter fun kv =>
                (lookup status_dict_2 kv.1).isSome && kv.2.isMetric).map
              note_of)) :=
  two_loop_join status_dict_2 a hb ss ds

/-- Witness for C5: the loop on a mapping holding a shared Metric key, a
reserved scalar entry, a non-Metric entry and a key missing from the other
side. -/
theorem two_models_row_emission_spec_witness :
    two_loop dictF dictE "" ""
      = Except.ok
          ("" ++ String.join
            ((dictE.filter fun kv =>
                (lookup dictF kv.1).isSome && kv.2.isMetric).map
              (row_of dictF)),
           "" ++ String.join
            ((dictE.filter fun kv =>
                (lookup dictF kv.1).isSome && kv.2.isMetric).map
              note_of)) :=
  two_models_row_emission_spec dictF dictE (by decide) "" ""

/-- The single-model renderer succeeds whenever the reserved `name` and
`backend` entries are strings. -/
theorem make_one_ok (d : StatusDict) (sp : Bool) (ds ss : String)
    (hn : ∃ s, getScalar d "name" = Except.ok s)
    (hb : ∃ s, getScalar d "backend" = Except.ok s) :
    ∃ out, make_one_model_summary_str d sp ds ss = Except.ok out := by
  obtain ⟨nm, hn⟩ := hn
  obtain ⟨bk, hb⟩ := hb
  rw [make_one_model_summary_str, hn, hb]
  exact ⟨_, rfl⟩

/-- The two-model renderer succeeds whenever both mappings' reserved `name`
and `backend` entries are strings and the second mapping holds Metrics
under the first mapping's shared Metric keys. -/
theorem make_two_ok (a b : StatusDict) (sp : Bool) (ds ss : String)
    (hna : ∃ s, getScalar a "name" = Except.ok s)
    (hba : ∃ s, getScalar a "backend" = Except.ok s)
    (hnb : ∃ s, getScalar b "name" = Except.ok s)
    (hbb : ∃ s, getScalar b "backend" = Except.ok s)
    (hmb : bEntriesMetricFor a b = true) :
    ∃ out, make_two_models_summary_str a b sp ds ss = Except.ok out := by
  obtain ⟨na, hna⟩ := hna
  obtain ⟨ba, hba⟩ := hba
  obtain ⟨nb, hnb⟩ := hnb
  obtain ⟨bb, hbb⟩ := hbb
  have hjoin := two_loop_join b a hmb
  rw [make_two_models_summary_str, hna, hnb, hba, hbb]
  simp only [hjoin]
  exact ⟨_, rfl⟩

/-- C1: for status mappings whose reserved `name`/`backend` entries are
strings (and, per the §3 data model, whose non-reserved entries on the
second side are Metrics), both renderers return a string and raise no
exception for every combination of metric values, units and comparative
tags; every numeric or comparison failure was already converted locally to
a display token. -/
theorem renderers_raise_no_exception (a b : StatusDict) (short_print : Bool)
    (description_str summary_str : String)
    (hna : ∃ s, getScalar a "name" = Except.ok s)
    (hba : ∃ s, getScalar a "backend" = Except.ok s)
    (hnb : ∃ s, getScalar b "name" = Except.ok s)
    (hbb : ∃ s, getScalar b "backend" = Except.ok s)
    (hmb : bEntriesMetricFor a b = true) :
    (∃ out, make_two_models_summary_str a b short_print description_str
        summary_str = Except.ok out)
    ∧ ∃ out, make_one_model_summary_str a short_print description_str
        summary_str = Except.ok out :=
  ⟨make_two_ok a b short_print description_str summary_str hna hba hnb hbb hmb,
   make_one_ok a short_print description_str summary_str hna hba⟩

/-- Witness for C1: both renderers succeed on concrete profiles holding a
NONE-comparative metric, a non-Metric entry and an unshared key. -/
theorem renderers_raise_no_exception_witness :
    (∃ out, make_two_models_summary_str dictE dictF true "" "\n"
        = Except.ok out)
    ∧ ∃ out, make_one_model_summary_str dictE true "" "\n" = Except.ok out :=
  renderers_raise_no_exception dictE dictF true "" "\n"
    ⟨"m1", rfl⟩ ⟨"torch", rfl⟩ ⟨"m2", rfl⟩ ⟨"torch", rfl⟩ (by decide)

/-- Looking the same key up in two mappings that agree except on comparative
tags gives entries related the same way (or fails on both). -/
theorem lookup_sameExceptComparative (b b' : StatusDict)
    (h : statusSameExceptComparative b b' = true) (k : String) :
    (lookup b k = Option.none ∧ lookup b' k = Option.none)
    ∨ ∃ e e', lookup b k = Option.some e ∧ lookup b' k = Option.some e'
        ∧ Entry.sameExceptComparative e e' = true := by
  induction b generalizing b' with
  | nil =>
    cases b' with
    | nil => exact Or.inl ⟨rfl, rfl⟩
    | cons kv' rest' => simp [statusSameExceptComparative] at h
  | cons kv rest ih =>
    obtain ⟨k1, e⟩ := kv
    cases b' with
    | nil => simp [statusSameExceptComparative] at h
    | cons kv' rest' =>
      obtain ⟨k1', e'⟩ := kv'
      rw [show statusSameExceptComparative ((k1, e) :: rest) ((k1', e') :: rest')
          = (decide (k1 = k1') && e.sameExceptComparative e'
              && statusSameExceptComparative rest rest') from rfl,
        Bool.and_eq_true, Bool.and_eq_true] at h
      obtain ⟨⟨hk, he⟩, hrest⟩ := h
      have hk : k1 = k1' := of_decide_eq_true hk
      subst hk
      by_cases hkk : k1 = k
      · subst hkk
        refine Or.inr ⟨e, e', ?_, ?_, he⟩ <;> simp [lookup]
      · have hrec := ih rest' hrest
        simpa [lookup, hkk] using hrec

/-- Reading a reserved scalar entry is unaffected by comparative tags. -/
theorem getScalar_sameExceptComparative (b b' : StatusDict)
    (h : statusSameExceptComparative b b' = true) (k : String) :
    getScalar b k = getScalar b' k := by
  rcases lookup_sameExceptComparative b b' h k with ⟨h1, h2⟩ | ⟨e, e', h1, h2, he⟩
  · rw [getScalar, getScalar, h1, h2]
  · rw [getScalar, getScalar, h1, h2]
    cases e with
    | scalar s1 =>
      cases e' with
      | scalar s2 =>
        have hs : s1 = s2 := by
          simpa [Entry.sameExceptComparative] using he
        rw [hs]
      | metric m2 => simp [Entry.sameExceptComparative] at he
    | metric m1 =>
      cases e' with
      | scalar s2 => simp [Entry.sameExceptComparative] at he
      | metric m2 => rfl

/-- The Enhancement cell and the rendered row ignore the second metric's
comparative tag. -/
theorem two_row_sameExceptComparative (sv sv2 sv2' : Metric)
    (h : Metric.sameExceptComparative sv2 sv2' = true) :
    comparison_cell sv sv2 = comparison_cell sv sv2'
    ∧ two_row sv sv2 = two_row sv sv2' := by
  rw [Metric.sameExceptComparative, Bool.and_eq_true, Bool.and_eq_true,
    Bool.and_eq_true] at h
  obtain ⟨⟨⟨hf, hv⟩, hu⟩, hd⟩ := h
  have hf := of_decide_eq_true hf
  have hv := of_decide_eq_true hv
  have hu := of_decide_eq_true hu
  have hd := of_decide_eq_true hd
  have e1 : (parse_metric sv2).1 = (parse_metric sv2').1 := by
    cases hval : sv2.value <;> cases hval' : sv2'.value <;>
      simp_all [parse_metric]
  have e2 : (parse_metric sv2).2.1 = (parse_metric sv2').2.1 := by
    cases hval : sv2.value <;> cases hval' : sv2'.value <;>
      simp_all [parse_metric]
  have e3 : (parse_metric sv2).2.2.1 = (parse_metric sv2').2.2.1 := by
    cases hval : sv2.value <;> cases hval' : sv2'.value <;>
      simp_all [parse_metric]
  have e5 : (parse_metric sv2).2.2.2.2 = (parse_metric sv2').2.2.2.2 := by
    cases hval : sv2.value <;> cases hval' : sv2'.value <;>
      simp_all [parse_metric]
  rcases hp2 : parse_metric sv2 with ⟨t2, v2, u2, c2, d2⟩
  rcases hp2' : parse_metric sv2' with ⟨t2', v2', u2', c2', d2'⟩
  rw [hp2, hp2'] at e1 e2 e3 e5
  have ht : t2 = t2' := e1
  have hvv : v2 = v2' := e2
  have huu : u2 = u2' := e3
  have hdd : d2 = d2' := e5
  subst ht hvv huu hdd
  constructor
  · rw [comparison_cell, comparison_cell, hp2, hp2']
  · rw [two_row, two_row, hp2, hp2', comparison_cell, comparison_cell,
      hp2, hp2']

/-- The cons equation of the two-model loop at a Metric entry. -/
theorem two_loop_cons_metric (b : StatusDict) (k : String) (sv : Metric)
    (rest : List (String × Entry)) (ss ds : String) :
    two_loop b ((k, Entry.metric sv) :: rest) ss ds
      = match lookup b k with
        | Option.none => two_loop b rest ss ds
        | Option.some (Entry.scalar _) => Except.error PyErr.attributeError
        | Option.some (Entry.metric sv2) =>
            two_loop b rest (ss ++ two_row sv sv2 ++ "\n")
              (ds ++ "* " ++ sv.friendly_name ++ ": "
                ++ sv.description ++ "\n") := rfl

/-- The two-model loop is unaffected by the second mapping's comparative
tags. -/
theorem two_loop_sameExceptComparative (b b' : StatusDict)
    (h : statusSameExceptComparative b b' = true) :
    ∀ (items : List (String × Entry)) (ss ds : String),
      two_loop b items ss ds = two_loop b' items ss ds := by
  intro items
  induction items with
  | nil => intro ss ds; rfl
  | cons kv rest ih =>
    intro ss ds
    obtain ⟨k, e⟩ := kv
    cases e with
    | scalar s0 => exact ih ss ds
    | metric sv =>
      rcases lookup_sameExceptComparative b b' h k with ⟨h1, h2⟩
        | ⟨e2, e2', h1, h2, he⟩
      · have hL : two_loop b ((k, Entry.metric sv) :: rest) ss ds
            = two_loop b rest ss ds := by
          rw [two_loop_cons_metric, h1]
        have hR : two_loop b' ((k, Entry.metric sv) :: rest) ss ds
            = two_loop b' rest ss ds := by
          rw [two_loop_cons_metric, h2]
        rw [hL, hR]
        exact ih ss ds
      · cases e2 with
        | scalar s2 =>
          cases e2' with
          | scalar s2' =>
            have hL : two_loop b ((k, Entry.metric sv) :: rest) ss ds
                = Except.error PyErr.attributeError := by
              rw [two_loop_cons_metric, h1]
            have hR : two_loop b' ((k, Entry.metric sv) :: rest) ss ds
                = Except.error PyErr.attributeError := by
              rw [two_loop_cons_metric, h2]
            rw [hL, hR]
          | metric m2' => simp [Entry.sameExceptComparative] at he
        | metric m2 =>
          cases e2' with
          | scalar s2' => simp [Entry.sameExceptComparative] at he
          | metric m2' =>
            have hm : Metric.sameExceptComparative m2 m2' = true := by
              simpa [Entry.sameExceptComparative] using he
            have hL : two_loop b ((k, Entry.metric sv) :: rest) ss ds
                = two_loop b rest (ss ++ two_row sv m2 ++ "\n")
                  (ds ++ "* " ++ sv.friendly_name ++ ": "
                    ++ sv.description ++ "\n") := by
              rw [two_loop_cons_metric, h1]
            have hR : two_loop b' ((k, Entry.metric sv) :: rest) ss ds
                = two_loop b' rest (ss ++ two_row sv m2' ++ "\n")
                  (ds ++ "* " ++ sv.friendly_name ++ ": "
                    ++ sv.description ++ "\n") := by
              rw [two_loop_cons_metric, h2]
            rw [hL, hR, (two_row_sameExceptComparative sv m2 m2' hm).2]
            exact ih _ _

/-- C8: the output of the two-model renderer does not depend on the
comparative tags of the second mapping's Metric entries — on inputs equal
except for those tags the returned strings are equal (the comparison uses
only the first mapping's adapted comparative mode). -/
theorem comparative_b_independence (a b b' : StatusDict) (sp : Bool)
    (ds ss : String) (h : statusSameExceptComparative b b' = true) :
    make_two_models_summary_str a b sp ds ss
      = make_two_models_summary_str a b' sp ds ss := by
  have hks := getScalar_sameExceptComparative b b' h
  have htl := two_loop_sameExceptComparative b b' h
  rw [make_two_models_summary_str, make_two_models_summary_str]
  simp only [hks, htl]

/-- Witness for C8: changing the second profile's comparative tag from
RATIO to DIFF leaves the report unchanged. -/
theorem comparative_b_independence_witness :
    make_two_models_summary_str dictA dictB true "" "\n"
      = make_two_models_summary_str dictA dictB' true "" "\n" :=
  comparative_b_independence dictA dictB dictB' true "" "\n" (by decide)

/-- A single-character split never returns an empty piece list. -/
theorem splitChar_ne_nil (sep : Char) : ∀ l : List Char, splitChar sep l ≠ [] := by
  intro l
  induction l with
  | nil => simp [splitChar]
  | cons c cs ih =>
    rw [splitChar]
    cases h : splitChar sep cs with
    | nil => simp
    | cons a as => by_cases hc : c = sep <;> simp [hc]

/-- Splitting a list that does not hold the separator keeps it whole. -/
theorem splitChar_not_mem (sep : Char) :
    ∀ l : List Char, sep ∉ l → splitChar sep l = [l] := by
  intro l
  induction l with
  | nil => intro _; rfl
  | cons c cs ih =>
    intro h
    rw [List.mem_cons] at h
    push_neg at h
    obtain ⟨hc, hcs⟩ := h
    have hc' : ¬c = sep := fun hh => hc hh.symm
    rw [splitChar, ih hcs]
    simp [hc']

/-- Splitting at the first separator occurrence peels off the prefix. -/
theorem splitChar_append (sep : Char) :
    ∀ (d rest : List Char), sep ∉ d →
      splitChar sep (d ++ sep :: rest) = d :: splitChar sep rest := by
  intro d
  induction d with
  | nil =>
    intro rest _
    rw [List.nil_append, splitChar]
    obtain ⟨l, ls, hl⟩ : ∃ l ls, splitChar sep rest = l :: ls := by
      cases h : splitChar sep rest with
      | nil => exact absurd h (splitChar_ne_nil sep rest)
      | cons l ls => exact ⟨l, ls, rfl⟩
    rw [hl]
    simp
  | cons c d ih =>
    intro rest h
    rw [List.mem_cons] at h
    push_neg at h
    obtain ⟨hc, hd⟩ := h
    have hc' : ¬c = sep := fun hh => hc hh.symm
    rw [List.cons_append, splitChar, ih rest hd]
    simp [hc']

/-- C7: formatting the NotComputed placeholder with any right-aligned
fixed-width numeric format spec never fails and yields the literal
`<NotComputed>` token left-padded with spaces to the requested width
(unpadded once the width is at most the token's 13 characters); and
rendering a status whose metrics all have absent values succeeds, with
every emitted row's value cell holding the padded token. -/
theorem notcomputed_format_spec :
    (∀ (d suffix : String) (w : Nat),
      d.toList ≠ [] → d.toList.all Char.isDigit = true →
      ('>') ∉ suffix.toList → digitsToNat d.toList = w →
      notComputedFormat (">" ++ d ++ "." ++ suffix)
        = repChar ' ' (w - 13) ++ "<NotComputed>")
    ∧ ∀ (sd : StatusDict) (sp : Bool) (ds ss : String),
        (∃ s, getScalar sd "name" = Except.ok s) →
        (∃ s, getScalar sd "backend" = Except.ok s) →
        allValuesAbsent sd = true →
        (∃ out, make_one_model_summary_str sd sp ds ss = Except.ok out)
        ∧ ∀ k m, (k, Entry.metric m) ∈ sd →
            one_row m
              = "|" ++ padSpaceLeft 40 (m.friendly_name ++ " (" ++ "" ++ ")")
                ++ " | " ++ (repChar ' ' 7 ++ "<NotComputed>") ++ "|" := by
  constructor
  · intro d suffix w hne hdig hsfx htn
    have hdlist : ∀ c ∈ d.toList, c.isDigit = true := List.all_eq_true.mp hdig
    have hgt : ('>') ∉ d.toList := fun hm => absurd (hdlist _ hm) (by decide)
    have hdot : ('.') ∉ d.toList := fun hm => absurd (hdlist _ hm) (by decide)
    have hnotin : ('>') ∉ (d.toList ++ '.' :: suffix.toList) := by
      intro hm
      rcases List.mem_append.mp hm with hm | hm
      · exact hgt hm
      · rcases List.mem_cons.mp hm with hm | hm
        · exact absurd hm (by decide)
        · exact hsfx hm
    have hlist : (">" ++ d ++ "." ++ suffix).toList
        = '>' :: (d.toList ++ '.' :: suffix.toList) := by
      simp [String.toList, String.data_append]
    have h1 : splitChar '>' ('>' :: (d.toList ++ '.' :: suffix.toList))
        = [] :: splitChar '>' (d.toList ++ '.' :: suffix.toList) := by
      have h0 := splitChar_append '>' [] (d.toList ++ '.' :: suffix.toList)
        (by simp)
      simpa using h0
    have h2 : splitChar '>' (d.toList ++ '.' :: suffix.toList)
        = [d.toList ++ '.' :: suffix.toList] := splitChar_not_mem _ _ hnotin
    have h3 : splitChar '.' (d.toList ++ '.' :: suffix.toList)
        = d.toList :: splitChar '.' suffix.toList :=
      splitChar_append '.' _ _ hdot
    have hcont : ('>' :: (d.toList ++ '.' :: suffix.toList)).contains '>'
        = true := List.elem_eq_true_of_mem (List.mem_cons_self _ _)
    have hdotmem : (d.toList ++ '.' :: suffix.toList).contains '.' = true :=
      List.elem_eq_true_of_mem
        (List.mem_append.mpr (Or.inr (List.mem_cons_self _ _)))
    have hempty : (d.toList).isEmpty = false := by
      cases hdl : d.toList with
      | nil => exact absurd hdl hne
      | cons a as => rfl
    rw [notComputedFormat, hlist]
    rw [if_pos hcont, h1, h2]
    simp only [List.getLastD_cons, List.getLastD_nil]
    rw [if_pos hdotmem, h3]
    simp only [List.headD_cons]
    rw [if_pos (by rw [hempty, hdig]; rfl), htn,
      show ("<NotComputed>" : String).length = 13 from rfl]
  · intro sd sp ds ss hn hb hab
    refine ⟨make_one_ok sd sp ds ss hn hb, ?_⟩
    intro k m hm
    have hv : m.value = Option.none := by
      have hall := List.all_eq_true.mp hab _ hm
      exact Option.isNone_iff_eq_none.mp (by simpa using hall)
    have hpm : parse_metric m = (m.friendly_name, MetricValue.notComputed, "",
        CompTag.mode Comparative.none, m.description) := by
      rw [parse_metric, hv]
    have hcell : formatValueCell 20 MetricValue.notComputed
        = repChar ' ' 7 ++ "<NotComputed>" := by decide
    rw [one_row, hpm]
    simp only [hcell]

/-- Witness for C7: the spec `>20.4f` pads the token to width 20, and the
single-model renderer succeeds on a status whose metric value is absent. -/
theorem notcomputed_format_spec_witness :
    notComputedFormat (">" ++ "20" ++ "." ++ "4f")
      = repChar ' ' (20 - 13) ++ "<NotComputed>"
    ∧ ∃ out, make_one_model_summary_str dictAbsent true "" "\n"
        = Except.ok out :=
  ⟨notcomputed_format_spec.1 "20" "4f" 20 (by decide) (by decide) (by decide)
    (by decide),
   (notcomputed_format_spec.2 dictAbsent true "" "\n" ⟨"m1", rfl⟩
    ⟨"torch", rfl⟩ (by decide)).1⟩

end DeepliteProfiler
